import Mathlib

/-!
A shallow embedding of `ProblemMatchingLibrary` from
`src/tensilelite/Tensile/Source/lib/include/Tensile/MatchingLibrary.hpp`,
together with a model of the `Matching::MatchingTable` interface that it
delegates to.  The table interface is declared in
`Tensile/PropertyMatching.hpp`, which is not part of this source tree, so
its operations are modelled from the specification (each such definition
says so in its doc comment).  Null `shared_ptr` values are modelled by
`Option`; the process-wide `Debug::Instance()` flags are modelled as an
explicit `DebugFlags` value read at call time.
-/

namespace TensileLite

/-- Modelled from the spec: the search-mode enumeration
(`SolutionLibrarySearchType`).  Only the distinction between `DEFAULT`
(proximity-matched retrieval) and any non-`DEFAULT` (exhaustive
enumeration) mode is observed by `MatchingLibrary.hpp`. -/
inductive SolutionLibrarySearchType where
  | DEFAULT
  | EXHAUSTIVE
  deriving DecidableEq, Repr

/-- The process-wide diagnostic flags (`Debug::Instance()`), modelled as an
explicit value that each operation reads at call time. -/
structure DebugFlags where
  enableDebugSelection : Bool
  printPropertyEvaluation : Bool
  printLibraryLogicIndex : Bool
  deriving DecidableEq, Repr

/-- The interface of a nested candidate library
(`SolutionLibrary<MyProblem, MySolution>`, the table's `Element`), as it is
used by `ProblemMatchingLibrary`: each operation returns its result
directly, with `Option` standing for a possibly-null `shared_ptr`.
`findBestSolutionBatch` models the `std::vector<MyProblem>` overload of
`findBestSolution` used by `findTopSolutionsGroupedGemm`. -/
structure SolutionLibrary (P H S : Type) [DecidableEq S] where
  findBestSolution : P → H → Option S
  findBestSolutionBatch : List P → H → Option S
  getSolutionByIndex : P → H → Int → Option S
  findAllSolutions : P → H → SolutionLibrarySearchType → Finset S
  findAllSolutionsGroupedGemm : List P → H → SolutionLibrarySearchType → Finset S

/-- Modelled from the spec: one benchmarked reference row of the matching
table — an embedding point in problem-property space together with the
nested candidate library. -/
structure MatchingRow (K E : Type) where
  point : K
  lib : E

/-- Modelled from the spec: the `Matching::MatchingTable` data
(`Tensile/PropertyMatching.hpp`, not in this source tree): a distance
metric fixed at construction, the benchmarked rows, a human-readable
summary (backing `description()`), and the pluggable evaluation policy
backing `findBestEvaluationSolution`. -/
structure MatchingTable (P K E S : Type) where
  distance : K → P → ℚ
  rows : List (MatchingRow K E)
  summary : String
  evalSelect : List S → Option S

/-- Fitness values: a distance, or the sentinel representing unbounded
distance (`std::numeric_limits<double>::max()`), modelled as `⊤`. -/
abbrev Fitness : Type := WithTop ℚ

/-- Modelled from the spec: the sentinel fitness returned when no row
resolves (an unbounded distance). -/
def sentinelFitness : Fitness := ⊤

variable {P K E S H : Type}

/-- Modelled from the spec: the ordering of two rows by distance to the
query problem, used to rank rows (smaller distance first). -/
def MatchingTable.rowLE (t : MatchingTable P K E S) (p : P) (a b : MatchingRow K E) : Prop :=
  t.distance a.point p ≤ t.distance b.point p

instance (t : MatchingTable P K E S) (p : P) : DecidableRel (t.rowLE p) := fun a b =>
  decidable_of_iff (t.distance a.point p ≤ t.distance b.point p) Iff.rfl

instance (t : MatchingTable P K E S) (p : P) : IsTotal (MatchingRow K E) (t.rowLE p) :=
  ⟨fun a b => le_total (t.distance a.point p) (t.distance b.point p)⟩

instance (t : MatchingTable P K E S) (p : P) : IsTrans (MatchingRow K E) (t.rowLE p) :=
  ⟨fun _ _ _ hab hbc => le_trans hab hbc⟩

/-- Modelled from the spec: `rankedRows(problem)` — every row, in ascending
distance order; a stable sort keeps rows of equal distance in insertion
order. -/
def MatchingTable.rankedRows (t : MatchingTable P K E S) (p : P) : List (MatchingRow K E) :=
  List.insertionSort (t.rowLE p) t.rows

/-- Modelled from the spec: `matchesInOrder(problem)` — the nested
libraries of the rows in ascending-distance order. -/
def MatchingTable.matchesInOrder (t : MatchingTable P K E S) (p : P) : List E :=
  (t.rankedRows p).map MatchingRow.lib

/-- Modelled from the spec: `GetAll()` — every row's nested library,
regardless of distance (used by non-`DEFAULT` retrieval modes). -/
def MatchingTable.GetAll (t : MatchingTable P K E S) : List E :=
  t.rows.map MatchingRow.lib

/-- Modelled from the spec: the traversal of `findBestMatch` over a row
list — the first row whose resolution is non-null yields the result,
paired with that row's distance as the fitness; if every row yields
nothing the result is null with the sentinel fitness. -/
def findBestMatchOn (dist : MatchingRow K E → ℚ) (transform : E → Option S) :
    List (MatchingRow K E) → Option S × Fitness
  | [] => (none, sentinelFitness)
  | r :: rs =>
    match transform r.lib with
    | some s => (some s, ((dist r : ℚ) : Fitness))
    | none => findBestMatchOn dist transform rs

/-- Modelled from the spec: `findBestMatch(problem, resolve)` — walk
`rankedRows(problem)` and return the first non-null resolution with its
row's distance as the match's fitness. -/
def MatchingTable.findBestMatch (t : MatchingTable P K E S) (p : P)
    (transform : E → Option S) : Option S × Fitness :=
  findBestMatchOn (fun r => t.distance r.point p) transform (t.rankedRows p)

/-- Modelled from the spec: the traversal of `findTopMatch` — collect up to
`k` resolved solutions walking the given rows in order, skipping rows that
resolve to nothing, stopping once `k` are collected or rows run out. -/
def collectTopOn (transform : E → Option S) :
    List (MatchingRow K E) → Nat → List S
  | [], _ => []
  | _ :: _, 0 => []
  | r :: rs, Nat.succ k =>
    match transform r.lib with
    | some s => s :: collectTopOn transform rs k
    | none => collectTopOn transform rs (Nat.succ k)

/-- Modelled from the spec: `findTopMatch(problem, resolve, k)` — up to `k`
resolved solutions in ascending-distance order of their rows. -/
def MatchingTable.findTopMatch (t : MatchingTable P K E S) (p : P)
    (transform : E → Option S) (numSolutions : Int) : List S :=
  collectTopOn transform (t.rankedRows p) numSolutions.toNat

/-- Modelled from the spec: the results of `findTopMatch` paired with each
result's fitness (the distance of the row it was resolved from); used to
state the ascending-fitness ranking property. -/
def topMatchFitness (dist : MatchingRow K E → ℚ) (transform : E → Option S)
    (l : List (MatchingRow K E)) (k : Nat) : List (S × ℚ) :=
  (l.filterMap (fun r => (transform r.lib).map (fun s => (s, dist r)))).take k

/-- Modelled from the spec: `findBestEvaluationSolution(problem, hardware,
resolve)` — the debug-selection path: resolve candidates exhaustively
across all rows and choose among them by the pluggable evaluation
policy. -/
def MatchingTable.findBestEvaluationSolution (t : MatchingTable P K E S) (_p : P) (_hw : H)
    (transform : E → Option S) : Option S :=
  t.evalSelect (t.rows.filterMap (fun r => transform r.lib))

end TensileLite

namespace TensileLite

variable {P K H S : Type} [DecidableEq S]

/-- `ProblemMatchingLibrary` (MatchingLibrary.hpp lines 44–49): holds a
possibly-null `shared_ptr` to a matching table whose elements are nested
`SolutionLibrary` values. -/
structure ProblemMatchingLibrary (P K H S : Type) [DecidableEq S] where
  table : Option (MatchingTable P K (SolutionLibrary P H S) S)

/-- `getSolutionByIndex` (lines 67–79), after the unguarded dereference of
`table`: `findBestMatch` with a transform forwarding the index lookup to
the nested library; the fitness of the pair is discarded. -/
def getSolutionByIndexOnTable (t : MatchingTable P K (SolutionLibrary P H S) S)
    (problem : P) (hardware : H) (index : Int) : Option S :=
  let transform : SolutionLibrary P H S → Option S := fun library =>
    library.getSolutionByIndex problem hardware index
  (t.findBestMatch problem transform).1

/-- `findBestSolution` (lines 81–107), after the unguarded dereference of
`table`.  The second component is the value stored through the `fitness`
out-pointer when the caller supplies one (`none` means the pointer is left
untouched, as on the debug-selection path). -/
def findBestSolutionOnTable (dbg : DebugFlags)
    (t : MatchingTable P K (SolutionLibrary P H S) S)
    (problem : P) (hardware : H) : Option S × Option Fitness :=
  let useDebugSelection := dbg.enableDebugSelection
  let transform : SolutionLibrary P H S → Option S := fun library =>
    library.findBestSolution problem hardware
  if useDebugSelection then
    (t.findBestEvaluationSolution problem hardware transform, none)
  else
    let r := t.findBestMatch problem transform
    (r.1, some r.2)

/-- `findAllSolutions` (lines 109–136), after the unguarded dereference of
`table`.  The `printPropertyEvaluation` flag only controls `std::cout`
printing and does not affect the returned set. -/
def findAllSolutionsOnTable (dbg : DebugFlags)
    (t : MatchingTable P K (SolutionLibrary P H S) S)
    (problem : P) (hardware : H) (searchType : SolutionLibrarySearchType) : Finset S :=
  let _debug := dbg.printPropertyEvaluation
  let ms := if searchType ≠ SolutionLibrarySearchType.DEFAULT
      then t.GetAll
      else t.matchesInOrder problem
  ms.foldl (fun rv row => rv ∪ row.findAllSolutions problem hardware searchType) ∅

/-- The `matches` sequence computed by `findAllSolutionsGroupedGemm`
(lines 148–151), as a function of the whole batch: the C++ conditional
operator evaluates `problems[0]` only in the `DEFAULT` branch, and that
unguarded access is out of bounds (`none`) on an empty batch. -/
def groupedGemmMatches (t : MatchingTable P K (SolutionLibrary P H S) S)
    (problems : List P) (searchType : SolutionLibrarySearchType) :
    Option (List (SolutionLibrary P H S)) :=
  if searchType ≠ SolutionLibrarySearchType.DEFAULT then some t.GetAll
  else (problems.head?).map (fun p0 => t.matchesInOrder p0)

/-- `findAllSolutionsGroupedGemm` (lines 138–166), after the unguarded
dereference of `table`: rows are matched using `problems[0]` only, while
each matched row's nested library receives the entire batch. -/
def findAllSolutionsGroupedGemmOnTable (dbg : DebugFlags)
    (t : MatchingTable P K (SolutionLibrary P H S) S)
    (problems : List P) (hardware : H) (searchType : SolutionLibrarySearchType) :
    Option (Finset S) :=
  let _debug := dbg.printPropertyEvaluation
  (groupedGemmMatches t problems searchType).map (fun ms =>
    ms.foldl
      (fun rv row => rv ∪ row.findAllSolutionsGroupedGemm problems hardware searchType) ∅)

/-- `findTopSolutions` (lines 168–191), after the unguarded dereference of
`table`: `findTopMatch` with a transform asking each nested library for
its single best solution.  The `printLibraryLogicIndex` flag only controls
printing and does not affect the returned vector. -/
def findTopSolutionsOnTable (dbg : DebugFlags)
    (t : MatchingTable P K (SolutionLibrary P H S) S)
    (problem : P) (hardware : H) (numSolutions : Int) : List S :=
  let _debug := dbg.printLibraryLogicIndex
  let transform : SolutionLibrary P H S → Option S := fun library =>
    library.findBestSolution problem hardware
  t.findTopMatch problem transform numSolutions

/-- `findTopSolutionsGroupedGemm` (lines 193–205), after the unguarded
dereference of `table`: `findTopMatch` against `problems[0]` (an unguarded
access, out of bounds on an empty batch) with a transform asking each
nested library for its best solution for the entire batch. -/
def findTopSolutionsGroupedGemmOnTable
    (t : MatchingTable P K (SolutionLibrary P H S) S)
    (problems : List P) (hardware : H) (numSolutions : Int) : Option (List S) :=
  let transform : SolutionLibrary P H S → Option S := fun library =>
    library.findBestSolutionBatch problems hardware
  (problems.head?).map (fun p0 => t.findTopMatch p0 transform numSolutions)

/-- `Type()` / `type()` (lines 51–58). -/
def ProblemMatchingLibrary.type (_l : ProblemMatchingLibrary P K H S) : String :=
  "Matching"

/-- `description()` (lines 59–65): the only operation that guards the null
table. -/
def ProblemMatchingLibrary.description (l : ProblemMatchingLibrary P K H S) : String :=
  match l.table with
  | none => l.type ++ ", table: nullptr"
  | some t => l.type ++ ": " ++ t.summary

/-- Library-level `getSolutionByIndex`: the member dereferences `table`
with no null check, modelled by the outer `Option` (`none` = fault). -/
def ProblemMatchingLibrary.getSolutionByIndex (l : ProblemMatchingLibrary P K H S)
    (problem : P) (hardware : H) (index : Int) : Option (Option S) :=
  l.table.map (fun t => getSolutionByIndexOnTable t problem hardware index)

/-- Library-level `findBestSolution` (unguarded `table` dereference). -/
def ProblemMatchingLibrary.findBestSolution (l : ProblemMatchingLibrary P K H S)
    (dbg : DebugFlags) (problem : P) (hardware : H) :
    Option (Option S × Option Fitness) :=
  l.table.map (fun t => findBestSolutionOnTable dbg t problem hardware)

/-- Library-level `findAllSolutions` (unguarded `table` dereference). -/
def ProblemMatchingLibrary.findAllSolutions (l : ProblemMatchingLibrary P K H S)
    (dbg : DebugFlags) (problem : P) (hardware : H)
    (searchType : SolutionLibrarySearchType) : Option (Finset S) :=
  l.table.map (fun t => findAllSolutionsOnTable dbg t problem hardware searchType)

/-- Library-level `findAllSolutionsGroupedGemm` (unguarded `table`
dereference). -/
def ProblemMatchingLibrary.findAllSolutionsGroupedGemm (l : ProblemMatchingLibrary P K H S)
    (dbg : DebugFlags) (problems : List P) (hardware : H)
    (searchType : SolutionLibrarySearchType) : Option (Option (Finset S)) :=
  l.table.map (fun t => findAllSolutionsGroupedGemmOnTable dbg t problems hardware searchType)

/-- Library-level `findTopSolutions` (unguarded `table` dereference). -/
def ProblemMatchingLibrary.findTopSolutions (l : ProblemMatchingLibrary P K H S)
    (dbg : DebugFlags) (problem : P) (hardware : H) (numSolutions : Int) :
    Option (List S) :=
  l.table.map (fun t => findTopSolutionsOnTable dbg t problem hardware numSolutions)

/-- Library-level `findTopSolutionsGroupedGemm` (unguarded `table`
dereference). -/
def ProblemMatchingLibrary.findTopSolutionsGroupedGemm (l : ProblemMatchingLibrary P K H S)
    (problems : List P) (hardware : H) (numSolutions : Int) : Option (Option (List S)) :=
  l.table.map (fun t => findTopSolutionsGroupedGemmOnTable t problems hardware numSolutions)

/-- A concrete nested library (always resolves) used to instantiate the
theorems below on concrete inputs. -/
def libA : SolutionLibrary ℚ Unit ℕ where
  findBestSolution := fun _ _ => some 10
  findBestSolutionBatch := fun ps _ => some (10 + ps.length)
  getSolutionByIndex := fun _ _ _ => some 12
  findAllSolutions := fun _ _ _ => {10, 13}
  findAllSolutionsGroupedGemm := fun _ _ _ => {14}

/-- A concrete nested library that never resolves (a row whose nested
library returns nothing is skipped, not an error). -/
def libB : SolutionLibrary ℚ Unit ℕ where
  findBestSolution := fun _ _ => none
  findBestSolutionBatch := fun _ _ => none
  getSolutionByIndex := fun _ _ _ => none
  findAllSolutions := fun _ _ _ => ∅
  findAllSolutionsGroupedGemm := fun _ _ _ => ∅

/-- A second always-resolving concrete nested library. -/
def libC : SolutionLibrary ℚ Unit ℕ where
  findBestSolution := fun _ _ => some 20
  findBestSolutionBatch := fun _ _ => some 21
  getSolutionByIndex := fun _ _ _ => some 22
  findAllSolutions := fun _ _ _ => {20}
  findAllSolutionsGroupedGemm := fun _ _ _ => {24}

/-- A concrete three-row table: each row's point directly encodes its
distance (the metric ignores the query), giving ranked order
`libA (1), libB (4), libC (6)`. -/
def tbl : MatchingTable ℚ ℚ (SolutionLibrary ℚ Unit ℕ) ℕ where
  distance := fun k _ => k
  rows := [⟨1, libA⟩, ⟨4, libB⟩, ⟨6, libC⟩]
  summary := "distance table"
  evalSelect := fun cands => cands.head?

/-- A concrete table with zero rows. -/
def emptyTbl : MatchingTable ℚ ℚ (SolutionLibrary ℚ Unit ℕ) ℕ where
  distance := fun k _ => k
  rows := []
  summary := "empty table"
  evalSelect := fun cands => cands.head?

/-- Diagnostic flags all inactive. -/
def dbgOff : DebugFlags := ⟨false, false, false⟩

/-- Diagnostic flags with debug-selection active. -/
def dbgOn : DebugFlags := ⟨true, false, false⟩

/-- A concrete library holding `tbl`. -/
def pml : ProblemMatchingLibrary ℚ ℚ Unit ℕ := ⟨some tbl⟩

/-- A concrete library whose table pointer is null. -/
def pmlNull : ProblemMatchingLibrary ℚ ℚ Unit ℕ := ⟨none⟩

end TensileLite

namespace TensileLite

section Lemmas

variable {P K E S H : Type}

/-- The ranked rows are a permutation of the table's rows. -/
theorem rankedRows_perm (t : MatchingTable P K E S) (p : P) :
    (t.rankedRows p).Perm t.rows :=
  List.perm_insertionSort (t.rowLE p) t.rows

/-- The ranked rows are in ascending-distance order. -/
theorem rankedRows_pairwise (t : MatchingTable P K E S) (p : P) :
    (t.rankedRows p).Pairwise
      (fun a b => t.distance a.point p ≤ t.distance b.point p) :=
  List.sorted_insertionSort (t.rowLE p) t.rows

/-- A table with no rows ranks no rows. -/
theorem rankedRows_nil (t : MatchingTable P K E S) (p : P) (hrows : t.rows = []) :
    t.rankedRows p = [] := by
  unfold MatchingTable.rankedRows
  rw [hrows]
  rfl

/-- If every row resolves to nothing, the best-match walk yields the null
solution with the sentinel fitness. -/
theorem findBestMatchOn_of_all_none {dist : MatchingRow K E → ℚ} {transform : E → Option S}
    {l : List (MatchingRow K E)} (h : ∀ r ∈ l, transform r.lib = none) :
    findBestMatchOn dist transform l = (none, sentinelFitness) := by
  induction l with
  | nil => rfl
  | cons r rs ih =>
    have hr : transform r.lib = none := h r (List.mem_cons_self r rs)
    have hrs : ∀ x ∈ rs, transform x.lib = none := fun x hx =>
      h x (List.mem_cons_of_mem r hx)
    simp only [findBestMatchOn, hr]
    exact ih hrs

/-- The top-match walk collects exactly the first `k` resolvable rows'
resolutions, in traversal order. -/
theorem collectTopOn_eq_take_filterMap (transform : E → Option S) :
    ∀ (l : List (MatchingRow K E)) (k : Nat),
      collectTopOn transform l k = (l.filterMap (fun r => transform r.lib)).take k
  | [], k => by simp [collectTopOn]
  | _ :: _, 0 => by simp [collectTopOn]
  | r :: rs, Nat.succ k => by
    cases hr : transform r.lib with
    | some s =>
      simp [collectTopOn, hr, List.filterMap_cons,
        collectTopOn_eq_take_filterMap transform rs k]
    | none =>
      simp [collectTopOn, hr, List.filterMap_cons,
        collectTopOn_eq_take_filterMap transform rs (Nat.succ k)]

/-- The top-match walk is the first projection of the fitness-paired
result list. -/
theorem collectTopOn_eq_map_fst (dist : MatchingRow K E → ℚ) (transform : E → Option S) :
    ∀ (l : List (MatchingRow K E)) (k : Nat),
      collectTopOn transform l k = (topMatchFitness dist transform l k).map Prod.fst
  | [], k => by simp [collectTopOn, topMatchFitness]
  | _ :: _, 0 => by simp [collectTopOn, topMatchFitness]
  | r :: rs, Nat.succ k => by
    cases hr : transform r.lib with
    | some s =>
      simp [collectTopOn, topMatchFitness, hr, List.filterMap_cons,
        collectTopOn_eq_map_fst dist transform rs k]
    | none =>
      simp [collectTopOn, topMatchFitness, hr, List.filterMap_cons,
        collectTopOn_eq_map_fst dist transform rs (Nat.succ k)]

/-- `filterMap` preserves pairwise relations transported along the
partial map. -/
theorem pairwise_filterMap_of_pairwise {A B : Type} {R : A → A → Prop} {Q : B → B → Prop}
    (f : A → Option B)
    (hf : ∀ a b, R a b → ∀ x y, f a = some x → f b = some y → Q x y) :
    ∀ {l : List A}, l.Pairwise R → (l.filterMap f).Pairwise Q := by
  intro l hl
  induction hl with
  | nil => simp
  | @cons a l' ha _ ih =>
    cases hfa : f a with
    | none => simpa [List.filterMap_cons, hfa] using ih
    | some x =>
      simp only [List.filterMap_cons, hfa]
      refine List.Pairwise.cons ?_ ih
      intro y hy
      obtain ⟨b, hb, hfb⟩ := List.mem_filterMap.mp hy
      exact hf a b (ha b hb) x y hfa hfb

/-- If the walked rows are in ascending-distance order then the
fitness-paired top-match results carry ascending fitness values. -/
theorem topMatchFitness_snd_pairwise {dist : MatchingRow K E → ℚ} {transform : E → Option S}
    {l : List (MatchingRow K E)}
    (hl : l.Pairwise (fun a b => dist a ≤ dist b)) (k : Nat) :
    ((topMatchFitness dist transform l k).map Prod.snd).Pairwise (· ≤ ·) := by
  have h1 : (l.filterMap (fun r => (transform r.lib).map (fun s => (s, dist r)))).Pairwise
      (fun x y : S × ℚ => x.2 ≤ y.2) := by
    refine pairwise_filterMap_of_pairwise _ ?_ hl
    intro a b hab x y hx hy
    obtain ⟨sa, -, hxa⟩ := Option.map_eq_some'.mp hx
    obtain ⟨sb, -, hyb⟩ := Option.map_eq_some'.mp hy
    rw [← hxa, ← hyb]
    exact hab
  have h2 : (topMatchFitness dist transform l k).Pairwise (fun x y : S × ℚ => x.2 ≤ y.2) :=
    h1.sublist (List.take_sublist _ _)
  exact List.pairwise_map.mpr h2

/-- Membership in a left fold of set unions. -/
theorem mem_foldl_union {T A : Type} [DecidableEq T] (f : A → Finset T) :
    ∀ (ls : List A) (init : Finset T) (s : T),
      (s ∈ ls.foldl (fun rv e => rv ∪ f e) init ↔ s ∈ init ∨ ∃ e ∈ ls, s ∈ f e)
  | [], init, s => by simp
  | e :: es, init, s => by
    rw [List.foldl_cons, mem_foldl_union f es (init ∪ f e) s]
    simp only [Finset.mem_union, List.mem_cons]
    constructor
    · rintro (⟨h | h⟩ | ⟨e', he', hs⟩)
      · exact Or.inl h
      · exact Or.inr ⟨e, Or.inl rfl, h⟩
      · exact Or.inr ⟨e', Or.inr he', hs⟩
    · rintro (h | ⟨e', (rfl | he'), hs⟩)
      · exact Or.inl (Or.inl h)
      · exact Or.inl (Or.inr hs)
      · exact Or.inr ⟨e', he', hs⟩

end Lemmas

end TensileLite

namespace TensileLite

section Claims

variable {P K H S : Type} [DecidableEq S]

/-- Claim C1: for every problem, hardware and table, when the
debug-selection flag is inactive, `findBestSolution` performs the table's
`findBestMatch` with a resolver asking each row's nested library for its
best solution, writes the resulting fitness through the caller-supplied
fitness pointer when that pointer is non-null, and returns the resolved
solution; if no row resolves it returns the null solution (with the
sentinel fitness) rather than faulting. -/
theorem findBestSolution_nonDebug_findBestMatch (dbg : DebugFlags)
    (t : MatchingTable P K (SolutionLibrary P H S) S) (problem : P) (hardware : H)
    (hdbg : dbg.enableDebugSelection = false) :
    (findBestSolutionOnTable dbg t problem hardware).1
        = (t.findBestMatch problem fun library =>
            library.findBestSolution problem hardware).1
    ∧ (findBestSolutionOnTable dbg t problem hardware).2
        = some (t.findBestMatch problem fun library =>
            library.findBestSolution problem hardware).2
    ∧ ((∀ library ∈ t.matchesInOrder problem,
          library.findBestSolution problem hardware = none) →
        findBestSolutionOnTable dbg t problem hardware = (none, some sentinelFitness)) := by
  have hmain : findBestSolutionOnTable dbg t problem hardware
      = ((t.findBestMatch problem fun library =>
            library.findBestSolution problem hardware).1,
         some (t.findBestMatch problem fun library =>
            library.findBestSolution problem hardware).2) := by
    simp [findBestSolutionOnTable, hdbg]
  refine ⟨by rw [hmain], by rw [hmain], ?_⟩
  intro hall
  have hrows : ∀ r ∈ t.rankedRows problem,
      (fun library : SolutionLibrary P H S =>
        library.findBestSolution problem hardware) r.lib = none := by
    intro r hr
    exact hall r.lib (List.mem_map_of_mem MatchingRow.lib hr)
  have hbm : (t.findBestMatch problem fun library =>
      library.findBestSolution problem hardware) = (none, sentinelFitness) := by
    unfold MatchingTable.findBestMatch
    exact findBestMatchOn_of_all_none hrows
  rw [hmain, hbm]

/-- Claim C1, witness: the theorem applied to the concrete table `tbl`. -/
theorem findBestSolution_nonDebug_findBestMatch_witness :
    (findBestSolutionOnTable dbgOff tbl 2 ()).1
      = (tbl.findBestMatch 2 fun library => library.findBestSolution 2 ()).1 :=
  (findBestSolution_nonDebug_findBestMatch dbgOff tbl 2 () rfl).1

/-- Claim C5: for every problem and hardware, when the process-wide
debug-selection flag (read at call time) is active, `findBestSolution`
delegates to the table's `findBestEvaluationSolution` instead of the
nearest-match search and returns that evaluation result (leaving the
fitness out-pointer unwritten). -/
theorem findBestSolution_debugSelection (dbg : DebugFlags)
    (t : MatchingTable P K (SolutionLibrary P H S) S) (problem : P) (hardware : H)
    (hdbg : dbg.enableDebugSelection = true) :
    findBestSolutionOnTable dbg t problem hardware
      = (t.findBestEvaluationSolution problem hardware
          (fun library => library.findBestSolution problem hardware), none) := by
  simp [findBestSolutionOnTable, hdbg]

/-- Claim C5, witness: the theorem applied with debug-selection active on
the concrete table `tbl`. -/
theorem findBestSolution_debugSelection_witness :
    findBestSolutionOnTable dbgOn tbl 2 ()
      = (tbl.findBestEvaluationSolution 2 ()
          (fun library => library.findBestSolution 2 ()), none) :=
  findBestSolution_debugSelection dbgOn tbl 2 () rfl

/-- Claim C6: every retrieval operation is deterministic — two calls with
identical inputs (debug flags, table, problem or batch, hardware, search
mode, count, index) produce identical outputs, including order. -/
theorem retrieval_deterministic (dbg dbg' : DebugFlags)
    (t t' : MatchingTable P K (SolutionLibrary P H S) S) (p p' : P) (hw hw' : H)
    (st st' : SolutionLibrarySearchType) (k k' : Int) (ps ps' : List P) (i i' : Int)
    (hdbg : dbg = dbg') (ht : t = t') (hp : p = p') (hhw : hw = hw') (hst : st = st')
    (hk : k = k') (hps : ps = ps') (hi : i = i') :
    findBestSolutionOnTable dbg t p hw = findBestSolutionOnTable dbg' t' p' hw'
    ∧ getSolutionByIndexOnTable t p hw i = getSolutionByIndexOnTable t' p' hw' i'
    ∧ findAllSolutionsOnTable dbg t p hw st = findAllSolutionsOnTable dbg' t' p' hw' st'
    ∧ findTopSolutionsOnTable dbg t p hw k = findTopSolutionsOnTable dbg' t' p' hw' k'
    ∧ findAllSolutionsGroupedGemmOnTable dbg t ps hw st
        = findAllSolutionsGroupedGemmOnTable dbg' t' ps' hw' st'
    ∧ findTopSolutionsGroupedGemmOnTable t ps hw k
        = findTopSolutionsGroupedGemmOnTable t' ps' hw' k' := by
  subst hdbg ht hp hhw hst hk hps hi
  exact ⟨rfl, rfl, rfl, rfl, rfl, rfl⟩

/-- Claim C6, witness: the theorem applied to two identical concrete
calls. -/
theorem retrieval_deterministic_witness :
    findBestSolutionOnTable dbgOff tbl 2 () = findBestSolutionOnTable dbgOff tbl 2 () :=
  (retrieval_deterministic dbgOff dbgOff tbl tbl 2 2 () ()
    SolutionLibrarySearchType.DEFAULT SolutionLibrarySearchType.DEFAULT 3 3 [2] [2] 0 0
    rfl rfl rfl rfl rfl rfl rfl rfl).1

/-- Claim C7: for every problem and hardware, a table with zero rows makes
`findBestSolution` (on the normal, non-debug path) return the null
solution with the sentinel-maximum fitness written to the fitness output,
and more generally an empty table yields "no solution" for every query
rather than a fault. -/
theorem emptyTable_no_solution (dbg : DebugFlags)
    (t : MatchingTable P K (SolutionLibrary P H S) S) (problem : P) (hardware : H)
    (searchType : SolutionLibrarySearchType) (index numSolutions : Int) (ps : List P)
    (hrows : t.rows = []) (hps : ps ≠ []) :
    findBestSolutionOnTable { dbg with enableDebugSelection := false } t problem hardware
        = (none, some sentinelFitness)
    ∧ getSolutionByIndexOnTable t problem hardware index = none
    ∧ findAllSolutionsOnTable dbg t problem hardware searchType = ∅
    ∧ findTopSolutionsOnTable dbg t problem hardware numSolutions = []
    ∧ findAllSolutionsGroupedGemmOnTable dbg t ps hardware searchType = some ∅
    ∧ findTopSolutionsGroupedGemmOnTable t ps hardware numSolutions = some [] := by
  obtain ⟨p0, ps', rfl⟩ := List.exists_cons_of_ne_nil hps
  have hrank : ∀ q : P, t.rankedRows q = [] := fun q => rankedRows_nil t q hrows
  have hbm : ∀ (q : P) (transform : SolutionLibrary P H S → Option S),
      t.findBestMatch q transform = (none, sentinelFitness) := by
    intro q transform
    unfold MatchingTable.findBestMatch
    rw [hrank q]
    rfl
  have htop : ∀ (q : P) (transform : SolutionLibrary P H S → Option S) (k : Int),
      t.findTopMatch q transform k = [] := by
    intro q transform k
    unfold MatchingTable.findTopMatch
    rw [hrank q]
    cases k.toNat <;> rfl
  refine ⟨?_, ?_, ?_, ?_, ?_, ?_⟩
  · simp [findBestSolutionOnTable, hbm]
  · simp [getSolutionByIndexOnTable, hbm]
  · simp [findAllSolutionsOnTable, MatchingTable.GetAll, MatchingTable.matchesInOrder,
      hrank, hrows]
  · simp [findTopSolutionsOnTable, htop]
  · simp [findAllSolutionsGroupedGemmOnTable, groupedGemmMatches, MatchingTable.GetAll,
      MatchingTable.matchesInOrder, hrank, hrows]
  · simp [findTopSolutionsGroupedGemmOnTable, htop]

/-- Claim C7, witness: the theorem applied to the concrete empty table. -/
theorem emptyTable_no_solution_witness :
    findBestSolutionOnTable { dbgOff with enableDebugSelection := false } emptyTbl 2 ()
      = (none, some sentinelFitness) :=
  (emptyTable_no_solution dbgOff emptyTbl 2 () SolutionLibrarySearchType.DEFAULT 0 3 [2]
    rfl (by simp)).1

/-- Claim C8: `description()` never faults: if the table is absent (null)
it returns the type name plus an explicit table-is-null note, and
otherwise it returns the type name concatenated with the table's
summary. -/
theorem description_total_spec (l : ProblemMatchingLibrary P K H S) :
    (l.table = none → l.description = "Matching, table: nullptr")
    ∧ (∀ t, l.table = some t → l.description = "Matching: " ++ t.summary) := by
  constructor
  · intro h
    simp only [ProblemMatchingLibrary.description, ProblemMatchingLibrary.type, h]
    rfl
  · intro t h
    simp only [ProblemMatchingLibrary.description, ProblemMatchingLibrary.type, h]
    rfl

/-- Claim C8, witness: the theorem applied to the concrete null-table and
non-null-table libraries. -/
theorem description_total_spec_witness :
    pmlNull.description = "Matching, table: nullptr" :=
  (description_total_spec pmlNull).1 rfl

end Claims

end TensileLite

namespace TensileLite

section ClaimsTwo

variable {P K H S : Type} [DecidableEq S]

/-- Claim C2: for every problem, hardware and `k`, `findTopSolutions`
returns at most `k` solutions in ascending fitness (proximity) order,
every returned solution comes from a row whose resolution was non-empty,
and the per-row resolver is the nested library's single best solution
(`findBestSolution`), not a recursive top-K. -/
theorem findTopSolutions_spec (dbg : DebugFlags)
    (t : MatchingTable P K (SolutionLibrary P H S) S) (problem : P) (hardware : H)
    (numSolutions : Int) :
    (findTopSolutionsOnTable dbg t problem hardware numSolutions).length
        ≤ numSolutions.toNat
    ∧ findTopSolutionsOnTable dbg t problem hardware numSolutions
        = (topMatchFitness (fun r => t.distance r.point problem)
            (fun library => library.findBestSolution problem hardware)
            (t.rankedRows problem) numSolutions.toNat).map Prod.fst
    ∧ ((topMatchFitness (fun r => t.distance r.point problem)
            (fun library => library.findBestSolution problem hardware)
            (t.rankedRows problem) numSolutions.toNat).map Prod.snd).Pairwise (· ≤ ·)
    ∧ (∀ s ∈ findTopSolutionsOnTable dbg t problem hardware numSolutions,
        ∃ library ∈ t.matchesInOrder problem,
          library.findBestSolution problem hardware = some s) := by
  have heq : findTopSolutionsOnTable dbg t problem hardware numSolutions
      = collectTopOn (fun library => library.findBestSolution problem hardware)
          (t.rankedRows problem) numSolutions.toNat := rfl
  refine ⟨?_, ?_, ?_, ?_⟩
  · rw [heq, collectTopOn_eq_take_filterMap]
    rw [List.length_take]
    exact Nat.min_le_left _ _
  · rw [heq, collectTopOn_eq_map_fst]
  · exact topMatchFitness_snd_pairwise (rankedRows_pairwise t problem) numSolutions.toNat
  · intro s hs
    rw [heq, collectTopOn_eq_take_filterMap] at hs
    have hs2 : s ∈ (t.rankedRows problem).filterMap
        (fun r => r.lib.findBestSolution problem hardware) :=
      (List.take_sublist _ _).mem hs
    obtain ⟨r, hr, hres⟩ := List.mem_filterMap.mp hs2
    exact ⟨r.lib, List.mem_map_of_mem MatchingRow.lib hr, hres⟩

/-- Claim C2, witness: the theorem applied to the concrete table `tbl`. -/
theorem findTopSolutions_spec_witness :
    (findTopSolutionsOnTable dbgOff tbl 2 () 3).length ≤ (3 : Int).toNat :=
  (findTopSolutions_spec dbgOff tbl 2 () 3).1

/-- Claim C3: `findAllSolutions` with `DEFAULT` search type returns the
identity-deduplicated union of the nested results over the rows in
ascending-distance order; with any non-`DEFAULT` search type it returns
the union over all rows of the table regardless of distance; consequently
a row whose nested resolution is empty contributes nothing. -/
theorem findAllSolutions_searchType_spec (dbg : DebugFlags)
    (t : MatchingTable P K (SolutionLibrary P H S) S) (problem : P) (hardware : H)
    (searchType : SolutionLibrarySearchType) :
    (searchType = SolutionLibrarySearchType.DEFAULT →
      ∀ s : S, s ∈ findAllSolutionsOnTable dbg t problem hardware searchType ↔
        ∃ library ∈ t.matchesInOrder problem,
          s ∈ library.findAllSolutions problem hardware searchType)
    ∧ (searchType ≠ SolutionLibrarySearchType.DEFAULT →
      ∀ s : S, s ∈ findAllSolutionsOnTable dbg t problem hardware searchType ↔
        ∃ library ∈ t.GetAll,
          s ∈ library.findAllSolutions problem hardware searchType)
    ∧ (searchType = SolutionLibrarySearchType.DEFAULT →
      ∀ s ∈ findAllSolutionsOnTable dbg t problem hardware searchType,
        ∃ library ∈ t.matchesInOrder problem,
          s ∈ library.findAllSolutions problem hardware searchType
            ∧ library.findAllSolutions problem hardware searchType ≠ ∅) := by
  have hmem : ∀ s : S, s ∈ findAllSolutionsOnTable dbg t problem hardware searchType ↔
      ∃ library ∈ (if searchType ≠ SolutionLibrarySearchType.DEFAULT
          then t.GetAll else t.matchesInOrder problem),
        s ∈ library.findAllSolutions problem hardware searchType := by
    intro s
    simp only [findAllSolutionsOnTable]
    rw [mem_foldl_union]
    simp
  refine ⟨?_, ?_, ?_⟩
  · intro hst s
    rw [hmem s, if_neg (by simp [hst])]
  · intro hst s
    rw [hmem s, if_pos hst]
  · intro hst s hs
    obtain ⟨library, hlib, hsl⟩ := (hmem s).mp hs
    rw [if_neg (by simp [hst])] at hlib
    exact ⟨library, hlib, hsl, Finset.ne_empty_of_mem hsl⟩

/-- Claim C3, witness: the `DEFAULT`-mode characterization applied to the
concrete table `tbl` at solution `10`. -/
theorem findAllSolutions_searchType_spec_witness :
    (10 : ℕ) ∈ findAllSolutionsOnTable dbgOff tbl 2 () SolutionLibrarySearchType.DEFAULT ↔
      ∃ library ∈ tbl.matchesInOrder 2,
        (10 : ℕ) ∈ library.findAllSolutions 2 () SolutionLibrarySearchType.DEFAULT :=
  (findAllSolutions_searchType_spec dbgOff tbl 2 () SolutionLibrarySearchType.DEFAULT).1 rfl 10

/-- Claim C4: the grouped-GEMM entry points match rows against only the
first problem of the batch — two batches agreeing on `problems[0]` select
exactly the same rows for matching — while each matched row's nested
library is passed the entire batch when resolving. -/
theorem groupedGemm_matches_first_problem_only (dbg : DebugFlags)
    (t : MatchingTable P K (SolutionLibrary P H S) S) (hardware : H)
    (searchType : SolutionLibrarySearchType) (numSolutions : Int)
    (ps1 ps2 : List P) (hhead : ps1.head? = ps2.head?) :
    groupedGemmMatches t ps1 searchType = groupedGemmMatches t ps2 searchType
    ∧ (ps1.head?).map (fun p0 => t.rankedRows p0)
        = (ps2.head?).map (fun p0 => t.rankedRows p0)
    ∧ (∀ ps : List P, findAllSolutionsGroupedGemmOnTable dbg t ps hardware searchType
        = (groupedGemmMatches t ps searchType).map (fun ms =>
            ms.foldl (fun rv row =>
              rv ∪ row.findAllSolutionsGroupedGemm ps hardware searchType) ∅))
    ∧ (∀ ps : List P, findTopSolutionsGroupedGemmOnTable t ps hardware numSolutions
        = (ps.head?).map (fun p0 => t.findTopMatch p0
            (fun library => library.findBestSolutionBatch ps hardware) numSolutions)) := by
  refine ⟨?_, ?_, fun ps => rfl, fun ps => rfl⟩
  · unfold groupedGemmMatches
    rw [hhead]
  · rw [hhead]

/-- Claim C4, witness: two concrete batches sharing `problems[0]` select
the same rows. -/
theorem groupedGemm_matches_first_problem_only_witness :
    groupedGemmMatches tbl [2, 3] SolutionLibrarySearchType.DEFAULT
      = groupedGemmMatches tbl [2, 5] SolutionLibrarySearchType.DEFAULT :=
  (groupedGemm_matches_first_problem_only dbgOff tbl ()
    SolutionLibrarySearchType.DEFAULT 3 [2, 3] [2, 5] rfl).1

/-- Claim C9, counterexample: the claim says both grouped entry points
unconditionally index `problems[0]` with no emptiness guard; but the
conditional operator in `findAllSolutionsGroupedGemm` evaluates
`problems[0]` only in its `DEFAULT` branch, so with an empty batch and a
non-`DEFAULT` search type the operation completes normally instead of
performing an out-of-bounds access. -/
theorem groupedGemm_empty_batch_exhaustive_no_fault :
    findAllSolutionsGroupedGemmOnTable dbgOff tbl ([] : List ℚ) ()
      SolutionLibrarySearchType.EXHAUSTIVE = some {14, 24} := by
  rfl

/-- Claim C9, amended: `findTopSolutionsGroupedGemm` unconditionally
indexes `problems[0]` with no emptiness guard, and
`findAllSolutionsGroupedGemm` does so whenever the search type is
`DEFAULT`; hence a non-empty batch is a precondition of both grouped entry
points, and under that precondition the access is in bounds and the
operations are total. -/
theorem groupedGemm_nonempty_batch_total (dbg : DebugFlags)
    (t : MatchingTable P K (SolutionLibrary P H S) S) (hardware : H)
    (searchType : SolutionLibrarySearchType) (numSolutions : Int) (ps : List P) :
    (ps ≠ [] →
      (findAllSolutionsGroupedGemmOnTable dbg t ps hardware searchType).isSome = true
      ∧ (findTopSolutionsGroupedGemmOnTable t ps hardware numSolutions).isSome = true)
    ∧ findTopSolutionsGroupedGemmOnTable t ([] : List P) hardware numSolutions = none
    ∧ (searchType = SolutionLibrarySearchType.DEFAULT →
      findAllSolutionsGroupedGemmOnTable dbg t ([] : List P) hardware searchType = none) := by
  refine ⟨?_, ?_, ?_⟩
  · intro hps
    obtain ⟨p0, ps', rfl⟩ := List.exists_cons_of_ne_nil hps
    constructor
    · by_cases hst : searchType = SolutionLibrarySearchType.DEFAULT <;>
        simp [findAllSolutionsGroupedGemmOnTable, groupedGemmMatches, hst]
    · simp [findTopSolutionsGroupedGemmOnTable]
  · simp [findTopSolutionsGroupedGemmOnTable]
  · intro hst
    simp [findAllSolutionsGroupedGemmOnTable, groupedGemmMatches, hst]

/-- Claim C9, amended, witness: a singleton batch makes both grouped entry
points total. -/
theorem groupedGemm_nonempty_batch_total_witness :
    (findAllSolutionsGroupedGemmOnTable dbgOff tbl [2] ()
        SolutionLibrarySearchType.DEFAULT).isSome = true :=
  ((groupedGemm_nonempty_batch_total dbgOff tbl ()
      SolutionLibrarySearchType.DEFAULT 3 [2]).1 (by simp)).1

/-- Claim C10: every query operation other than `description()` and
`type()` dereferences the table member with no null check — on a null
table each faults (modelled as `none`) — while with a table present each
is the corresponding table-level computation; `description()` and
`type()` are defined even for a null table. -/
theorem queryOps_require_table (l : ProblemMatchingLibrary P K H S) (dbg : DebugFlags)
    (problem : P) (hardware : H) (searchType : SolutionLibrarySearchType)
    (index numSolutions : Int) (ps : List P) :
    (l.table = none →
      l.getSolutionByIndex problem hardware index = none
      ∧ l.findBestSolution dbg problem hardware = none
      ∧ l.findAllSolutions dbg problem hardware searchType = none
      ∧ l.findAllSolutionsGroupedGemm dbg ps hardware searchType = none
      ∧ l.findTopSolutions dbg problem hardware numSolutions = none
      ∧ l.findTopSolutionsGroupedGemm ps hardware numSolutions = none
      ∧ l.description = "Matching, table: nullptr"
      ∧ l.type = "Matching")
    ∧ (∀ t, l.table = some t →
      l.getSolutionByIndex problem hardware index
          = some (getSolutionByIndexOnTable t problem hardware index)
      ∧ l.findBestSolution dbg problem hardware
          = some (findBestSolutionOnTable dbg t problem hardware)
      ∧ l.findAllSolutions dbg problem hardware searchType
          = some (findAllSolutionsOnTable dbg t problem hardware searchType)
      ∧ l.findAllSolutionsGroupedGemm dbg ps hardware searchType
          = some (findAllSolutionsGroupedGemmOnTable dbg t ps hardware searchType)
      ∧ l.findTopSolutions dbg problem hardware numSolutions
          = some (findTopSolutionsOnTable dbg t problem hardware numSolutions)
      ∧ l.findTopSolutionsGroupedGemm ps hardware numSolutions
          = some (findTopSolutionsGroupedGemmOnTable t ps hardware numSolutions)) := by
  constructor
  · intro h
    refine ⟨?_, ?_, ?_, ?_, ?_, ?_, ?_, ?_⟩ <;>
      simp [ProblemMatchingLibrary.getSolutionByIndex,
        ProblemMatchingLibrary.findBestSolution,
        ProblemMatchingLibrary.findAllSolutions,
        ProblemMatchingLibrary.findAllSolutionsGroupedGemm,
        ProblemMatchingLibrary.findTopSolutions,
        ProblemMatchingLibrary.findTopSolutionsGroupedGemm,
        ProblemMatchingLibrary.description,
        ProblemMatchingLibrary.type, h]
  · intro t h
    refine ⟨?_, ?_, ?_, ?_, ?_, ?_⟩ <;>
      simp [ProblemMatchingLibrary.getSolutionByIndex,
        ProblemMatchingLibrary.findBestSolution,
        ProblemMatchingLibrary.findAllSolutions,
        ProblemMatchingLibrary.findAllSolutionsGroupedGemm,
        ProblemMatchingLibrary.findTopSolutions,
        ProblemMatchingLibrary.findTopSolutionsGroupedGemm, h]

/-- Claim C10, witness: the theorem applied to the concrete null-table and
non-null-table libraries. -/
theorem queryOps_require_table_witness :
    pmlNull.findBestSolution dbgOff 2 () = none
    ∧ pml.findBestSolution dbgOff 2 () = some (findBestSolutionOnTable dbgOff tbl 2 ()) :=
  ⟨((queryOps_require_table pmlNull dbgOff 2 ()
      SolutionLibrarySearchType.DEFAULT 0 3 [2]).1 rfl).2.1,
   ((queryOps_require_table pml dbgOff 2 ()
      SolutionLibrarySearchType.DEFAULT 0 3 [2]).2 tbl rfl).2.1⟩

end ClaimsTwo

end TensileLite
